import Mathlib

set_option maxRecDepth 40000

/-!
Shallow embedding of `bot.py` (norah-ops-bot): business-day / period calendar
arithmetic, the numeric-literal helpers `_num` / `_int`, the structured
report parser `parse_full_report_block`, the notes tokenizer, the notes-report
detector `looks_like_notes_report`, and the dispatch logic of the `on_text`
handler.  Python strings are modelled as `List Char`; Python `int` as `ℤ`;
Python `float` as `ℚ` (all numerals appearing in the claims are exact
decimals, so rational arithmetic coincides with the float values printed by
the program); fallible code returns `Option` / `Except`.
-/

/-! ### Character and string primitives (models of Python `str` methods) -/

/-- Python `str` default whitespace characters (the ones relevant to
`str.strip` / `str.split`). -/
def isSpaceCh (c : Char) : Bool :=
  c = ' ' || c = '\t' || c = '\n' || c = '\r' || c = '\x0b' || c = '\x0c'

/-- Model of Python `str.lower()` on the alphabet this program manipulates:
ASCII letters plus the accented letters admitted by `tokenize`'s character
class. -/
def lowerCh (c : Char) : Char :=
  if c = 'Á' then 'á' else if c = 'É' then 'é'
  else if c = 'Í' then 'í' else if c = 'Ó' then 'ó'
  else if c = 'Ú' then 'ú' else if c = 'Ñ' then 'ñ'
  else if c = 'Ü' then 'ü' else if c = 'Ç' then 'ç'
  else c.toLower

def pyLower (s : List Char) : List Char := s.map lowerCh

/-- Model of Python `str.strip()` (no argument): drop leading and trailing
whitespace. -/
def pyStrip (s : List Char) : List Char :=
  ((s.dropWhile isSpaceCh).reverse.dropWhile isSpaceCh).reverse

/-- Split at every occurrence of `sep`, keeping empty pieces (model of
Python `str.split(sep)`). -/
def splitChar (sep : Char) : List Char → List (List Char)
  | [] => [[]]
  | c :: rest =>
    match splitChar sep rest with
    | [] => [[c]]
    | w :: ws => if c = sep then [] :: w :: ws else (c :: w) :: ws

/-- Model of Python `str.splitlines()` restricted to `'\n'` separators (the
only line separator occurring in this program's inputs): like splitting on
`'\n'` but a trailing newline does not contribute an empty final line. -/
def pySplitlines (s : List Char) : List (List Char) :=
  if s = [] then []
  else if s.getLast? = some '\n' then (splitChar '\n' s).dropLast
  else splitChar '\n' s

/-- Model of Python `s.split(sep, 1)[...]`: find the first occurrence of
`sep` and return the pieces before and after it, or `none` when absent
(Python raises `IndexError` on `[1]` in that case). -/
def breakAt (sep : Char) : List Char → Option (List Char × List Char)
  | [] => none
  | c :: rest =>
    if c = sep then some ([], rest)
    else (breakAt sep rest).map (fun p => (c :: p.1, p.2))

/-- Bool test for `pfx.lower()` being a prefix of `s.lower()`, the pattern
`raw.lower().startswith(pfx.lower())` used throughout the parser. -/
def startsWithCI (pfx s : List Char) : Bool :=
  (pyLower pfx).isPrefixOf (pyLower s)

/-- Plain case-sensitive prefix test (for already-lowercased strings). -/
def startsWithCS (pfx s : List Char) : Bool :=
  pfx.isPrefixOf s

/-- Substring containment, Python `p in t`. -/
def containsSub (p t : List Char) : Bool :=
  t.tails.any (fun s => p.isPrefixOf s)

def natOfDigits (l : List Char) : ℕ :=
  l.foldl (fun acc c => 10 * acc + (c.toNat - '0'.toNat)) 0

def isDigitCh (c : Char) : Bool := '0' ≤ c && c ≤ '9'

/-! ### Calendar (models of `datetime.date` arithmetic)

A `Date` is a year/month/day triple of integers.  Python bounds years to
1..9999 (`OverflowError` / `ValueError` outside); wherever the code builds a
date through the `date(...)` constructor or could walk out of that range via
`timedelta` arithmetic we perform the same range check, so the embedding
returns `none` exactly where Python raises. -/

structure Date where
  year : ℤ
  month : ℤ
  day : ℤ
  deriving DecidableEq, Repr

/-- Gregorian leap-year rule, as `calendar`/`datetime` implement it. -/
def isLeap (y : ℤ) : Bool := (y % 4 = 0 && y % 100 ≠ 0) || y % 400 = 0

def daysInMonth (y m : ℤ) : ℤ :=
  if m = 2 then (if isLeap y then 29 else 28)
  else if m = 4 || m = 6 || m = 9 || m = 11 then 30
  else 31

/-- Month and day well-formedness (what `date.__new__` validates besides the
year range). -/
def ValidMD (d : Date) : Prop :=
  1 ≤ d.month ∧ d.month ≤ 12 ∧ 1 ≤ d.day ∧ d.day ≤ daysInMonth d.year d.month

instance (d : Date) : Decidable (ValidMD d) := by unfold ValidMD; infer_instance

def inYearRange (y : ℤ) : Prop := 1 ≤ y ∧ y ≤ 9999

instance (y : ℤ) : Decidable (inYearRange y) := by unfold inYearRange; infer_instance

/-- Model of the Python `date(y, m, d)` constructor: `none` where Python
raises `ValueError`. -/
def mkDate (y m d : ℤ) : Option Date :=
  if inYearRange y ∧ 1 ≤ m ∧ m ≤ 12 ∧ 1 ≤ d ∧ d ≤ daysInMonth y m
  then some ⟨y, m, d⟩ else none

/-- Calendar successor: `d + timedelta(days=1)` on the unbounded proleptic
Gregorian calendar (agrees with Python wherever Python does not overflow). -/
def succD (d : Date) : Date :=
  if d.day < daysInMonth d.year d.month then ⟨d.year, d.month, d.day + 1⟩
  else if d.month < 12 then ⟨d.year, d.month + 1, 1⟩
  else ⟨d.year + 1, 1, 1⟩

/-- Calendar predecessor: `d - timedelta(days=1)`, same caveat as `succD`. -/
def predD (d : Date) : Date :=
  if 1 < d.day then ⟨d.year, d.month, d.day - 1⟩
  else if 1 < d.month then ⟨d.year, d.month - 1, daysInMonth d.year (d.month - 1)⟩
  else ⟨d.year - 1, 12, 31⟩

/-- `d + timedelta(days=1)` with Python's year-range overflow check. -/
def addOneDay (d : Date) : Option Date :=
  if inYearRange (succD d).year then some (succD d) else none

/-- `d - timedelta(days=n)` with Python's year-range overflow check. -/
def subDays (d : Date) (n : ℕ) : Option Date :=
  let r := predD^[n] d
  if inYearRange r.year then some r else none

/-- Python `date` comparison: lexicographic on (year, month, day), which is
ordinal order for well-formed dates. -/
def dateLe (a b : Date) : Prop :=
  a.year < b.year ∨ (a.year = b.year ∧
    (a.month < b.month ∨ (a.month = b.month ∧ a.day ≤ b.day)))

instance (a b : Date) : Decidable (dateLe a b) := by unfold dateLe; infer_instance

/-! ### `business_day_for` and `add_months` (bot.py lines 277-311) -/

/-- A timezone-localized timestamp, reduced to the fields `business_day_for`
reads: its calendar date and local hour. -/
structure PyTimestamp where
  date : Date
  hour : ℤ
  deriving DecidableEq, Repr

/-- bot.py `business_day_for`.  `CUTOFF_HOUR` is module configuration (env
var, default 11); it is passed here as the `cutoff` parameter.
`ts.date() - timedelta(days=1)` is the calendar predecessor `predD`. -/
def business_day_for (cutoff : ℤ) (ts : PyTimestamp) : Date :=
  if ts.hour < cutoff then predD ts.date else ts.date

/-- bot.py `add_months`.  Python `//` and `%` on a positive modulus are
`Int.ediv` / `Int.emod`.  `last_day` is obtained, as in the source, by
stepping one day back from the first of the following month. -/
def add_months (d : Date) (months : ℤ) : Option Date :=
  let y := d.year + (d.month - 1 + months) / 12
  let m := (d.month - 1 + months) % 12 + 1
  do
    let next_first ← if m = 12 then mkDate (y + 1) 1 1 else mkDate y (m + 1) 1
    let last_day := (predD next_first).day
    mkDate y m (min d.day last_day)

/-! ### `parse_period_arg` and `period_ending_today` (bot.py lines 313-340) -/

structure Period where
  start : Date
  stop : Date
  deriving DecidableEq, Repr

inductive PeriodUnit where
  | M : PeriodUnit
  | Y : PeriodUnit
  deriving DecidableEq, Repr

inductive PeriodSpec where
  | days (n : ℕ) : PeriodSpec
  | unit (u : PeriodUnit) (n : ℕ) : PeriodSpec
  deriving DecidableEq, Repr

/-- Model of `str.upper()` on the period-token alphabet. -/
def upperCh (c : Char) : Char := c.toUpper

/-- bot.py `parse_period_arg`: strip and uppercase the token; a bare digit
string is a day count; digits followed by `M` or `Y` are a unit spec; a
`ValueError` (here `none`) otherwise. -/
def parse_period_arg (arg : String) : Option PeriodSpec :=
  let a := (pyStrip arg.data).map upperCh
  if a ≠ [] ∧ a.all isDigitCh then some (.days (natOfDigits a))
  else
    match a.getLast? with
    | some 'M' =>
      let ds := a.dropLast
      if ds ≠ [] ∧ ds.all isDigitCh then some (.unit .M (natOfDigits ds)) else none
    | some 'Y' =>
      let ds := a.dropLast
      if ds ≠ [] ∧ ds.all isDigitCh then some (.unit .Y (natOfDigits ds)) else none
    | _ => none

/-- bot.py `period_ending_today`, with the reference end day (there
`business_day_today()`) passed as a parameter. -/
def period_ending (endD : Date) (arg : String) : Option Period :=
  match parse_period_arg arg with
  | none => none
  | some (.days n) =>
    if 0 < n then (subDays endD (n - 1)).map (fun s => ⟨s, endD⟩)
    else some ⟨endD, endD⟩
  | some (.unit .M n) => do
    let am ← add_months endD (-(n : ℤ))
    let s ← addOneDay am
    pure ⟨s, endD⟩
  | some (.unit .Y n) => do
    let base ← mkDate (endD.year - n) endD.month endD.day
    let s ← addOneDay base
    pure ⟨s, endD⟩

/-! ### Order lemmas for dates -/

/-- Month count: `12 * year + (month - 1)`; on well-formed months it orders
(year, month) pairs exactly as the calendar does. -/
def mc (d : Date) : ℤ := 12 * d.year + d.month - 1

theorem dateLe_refl (a : Date) : dateLe a a := by unfold dateLe; omega

theorem dateLe_trans {a b c : Date} (h1 : dateLe a b) (h2 : dateLe b c) :
    dateLe a c := by
  unfold dateLe at *; omega

theorem predD_lt (d : Date) : dateLe (predD d) d ∧ predD d ≠ d := by
  unfold predD dateLe
  split
  · refine ⟨by dsimp only; omega, fun h => ?_⟩
    rw [Date.mk.injEq] at h; omega
  · split
    · refine ⟨by dsimp only; omega, fun h => ?_⟩
      rw [Date.mk.injEq] at h; omega
    · refine ⟨by dsimp only; omega, fun h => ?_⟩
      rw [Date.mk.injEq] at h; omega

theorem iter_predD_le (d : Date) (n : ℕ) : dateLe (predD^[n] d) d := by
  induction n with
  | zero => exact dateLe_refl d
  | succ k ih =>
    rw [Function.iterate_succ_apply']
    exact dateLe_trans (predD_lt (predD^[k] d)).1 ih

theorem mc_lt_imp_lt {a b : Date} (hma : 1 ≤ a.month ∧ a.month ≤ 12)
    (hmb : 1 ≤ b.month ∧ b.month ≤ 12) (h : mc a < mc b) : dateLe a b := by
  unfold mc at h; unfold dateLe; omega

/-- If the month count of `s` is still strictly below that of a well-formed
date `e` even after one step, then the calendar successor of `s` is at most
`e`. -/
theorem succD_le_of_mc {s e : Date} (hs : 1 ≤ s.month ∧ s.month ≤ 12)
    (he : ValidMD e) (h : mc s + 1 ≤ mc e) : dateLe (succD s) e := by
  obtain ⟨he1, he2, he3, he4⟩ := he
  unfold succD
  split
  · exact mc_lt_imp_lt (by simpa using hs) ⟨he1, he2⟩ (by unfold mc at *; simp; omega)
  · split
    · rcases lt_or_eq_of_le (show mc ⟨s.year, s.month + 1, 1⟩ ≤ mc e by
        unfold mc at *; simp; omega) with hlt | heq
      · exact mc_lt_imp_lt (by simp; omega) ⟨he1, he2⟩ hlt
      · unfold mc at heq; unfold dateLe; simp at heq ⊢; omega
    · rcases lt_or_eq_of_le (show mc ⟨s.year + 1, 1, 1⟩ ≤ mc e by
        unfold mc at *; simp; omega) with hlt | heq
      · exact mc_lt_imp_lt (by simp) ⟨he1, he2⟩ hlt
      · unfold mc at heq; unfold dateLe; simp at heq ⊢; omega

theorem mkDate_some {y m d : ℤ} {r : Date} (h : mkDate y m d = some r) :
    r = ⟨y, m, d⟩ ∧ inYearRange y ∧ 1 ≤ m ∧ m ≤ 12 ∧ 1 ≤ d ∧ d ≤ daysInMonth y m := by
  unfold mkDate at h
  split at h
  · exact ⟨by simpa using h.symm, by assumption⟩
  · exact absurd h (by simp)

/-- Structure of a successful `add_months`: the result has a well-formed
month and day, and its month count is the input's shifted by `months`. -/
theorem add_months_some {d : Date} {months : ℤ} {r : Date}
    (h : add_months d months = some r) :
    (1 ≤ r.month ∧ r.month ≤ 12 ∧ 1 ≤ r.day) ∧ mc r = mc d + months := by
  unfold add_months at h
  dsimp only at h
  split at h <;>
  · simp only [Option.bind_eq_bind, Option.bind_eq_some] at h
    obtain ⟨nf, hnf, hr⟩ := h
    obtain ⟨hr', _, hm1, hm2, hd1, hd2⟩ := mkDate_some hr
    subst hr'
    refine ⟨⟨hm1, hm2, hd1⟩, ?_⟩
    unfold mc
    dsimp only
    have := Int.ediv_add_emod (d.month - 1 + months) 12
    omega

/-! ### Claim C4: `business_day_for` -/

/-- C4: for every timestamp `t` and cutoff hour `c` in 0–23,
`business_day_for` returns `t`'s calendar date minus one day when `t`'s
local hour is strictly below `c`, and `t`'s calendar date otherwise. -/
theorem c4_business_day (c : ℤ) (t : PyTimestamp) (hc0 : 0 ≤ c) (hc1 : c ≤ 23) :
    (t.hour < c → business_day_for c t = predD t.date) ∧
    (c ≤ t.hour → business_day_for c t = t.date) := by
  unfold business_day_for
  constructor
  · intro h; rw [if_pos h]
  · intro h; rw [if_neg (not_lt.mpr h)]

/-- Witness for C4 at cutoff 11: a 03:00 timestamp on 2026-01-24 maps to
2026-01-23, a 12:00 one stays on 2026-01-24. -/
theorem c4_business_day_witness :
    business_day_for 11 ⟨⟨2026, 1, 24⟩, 3⟩ = ⟨2026, 1, 23⟩ ∧
    business_day_for 11 ⟨⟨2026, 1, 24⟩, 12⟩ = ⟨2026, 1, 24⟩ := by
  constructor
  · rw [(c4_business_day 11 ⟨⟨2026, 1, 24⟩, 3⟩ (by norm_num) (by norm_num)).1
      (by norm_num)]
    decide
  · rw [(c4_business_day 11 ⟨⟨2026, 1, 24⟩, 12⟩ (by norm_num) (by norm_num)).2
      (by norm_num)]

/-! ### Claim C5: `add_months` at Jan 31 -/

/-- C5 counterexample: the code's `add_months(date(2026,1,31), -1)` is
2025-12-31 (December of the previous year), not the 2026-02-28 the claim
states; likewise the leap-year instance gives 2027-12-31. -/
theorem c5_add_months_counterexample :
    add_months ⟨2026, 1, 31⟩ (-1) = some ⟨2025, 12, 31⟩ ∧
    add_months ⟨2028, 1, 31⟩ (-1) = some ⟨2027, 12, 31⟩ ∧
    add_months ⟨2026, 1, 31⟩ (-1) ≠ some ⟨2026, 2, 28⟩ := by decide

/-- C5 amended: shifting Jan 31 by *plus* one month lands in February of the
same year, clamped to February's last day — 2026-02-28 (non-leap) and
2028-02-29 (leap); the minus-one-month shifts land on Dec 31 of the
preceding year. -/
theorem c5_add_months_amended :
    add_months ⟨2026, 1, 31⟩ 1 = some ⟨2026, 2, 28⟩ ∧
    add_months ⟨2028, 1, 31⟩ 1 = some ⟨2028, 2, 29⟩ ∧
    add_months ⟨2026, 1, 31⟩ (-1) = some ⟨2025, 12, 31⟩ ∧
    add_months ⟨2028, 1, 31⟩ (-1) = some ⟨2027, 12, 31⟩ := by decide

/-! ### Claim C8: the `Period` invariant -/

/-- C8 counterexample: the token `"0M"` is accepted by `parse_period_arg`,
and `period_ending` then produces a period whose start (2026-04-01) is
strictly after its end (2026-03-31), violating `start ≤ end`. -/
theorem c8_period_counterexample :
    parse_period_arg "0M" = some (.unit .M 0) ∧
    period_ending ⟨2026, 3, 31⟩ "0M" = some ⟨⟨2026, 4, 1⟩, ⟨2026, 3, 31⟩⟩ ∧
    ¬ dateLe ⟨2026, 4, 1⟩ ⟨2026, 3, 31⟩ := by decide

/-- C8 amended: for every well-formed reference end day and every accepted
period token whose spec is either a bare day count (any `n ≥ 0`) or a
month/year spec with `n ≥ 1`, any period `period_ending` produces satisfies
`start ≤ end`.  (For `0M`/`0Y` the produced start is `end + 1 day`, the
counterexample above.) -/
theorem c8_period_invariant_amended (endD : Date) (hv : ValidMD endD)
    (tok : String) (spec : PeriodSpec) (hp : parse_period_arg tok = some spec)
    (hn : ∀ u n, spec = PeriodSpec.unit u n → 1 ≤ n)
    (p : Period) (hres : period_ending endD tok = some p) :
    dateLe p.start p.stop := by
  unfold period_ending at hres
  rw [hp] at hres
  match spec with
  | .days n =>
    dsimp only at hres
    split at hres
    · simp only [Option.map_eq_some'] at hres
      obtain ⟨s, hs, hp'⟩ := hres
      subst hp'
      unfold subDays at hs
      dsimp only at hs
      split at hs
      · cases hs
        exact iter_predD_le endD (n - 1)
      · exact absurd hs (by simp)
    · cases hres
      exact dateLe_refl endD
  | .unit .M n =>
    have hn' : 1 ≤ n := hn .M n rfl
    simp only [Option.bind_eq_bind, Option.bind_eq_some] at hres
    obtain ⟨am, ham, s, hs, hp'⟩ := hres
    cases hp'
    dsimp only
    obtain ⟨⟨hm1, hm2, hd1⟩, hmc⟩ := add_months_some ham
    unfold addOneDay at hs
    split at hs
    · cases hs
      exact succD_le_of_mc ⟨hm1, hm2⟩ hv (by omega)
    · exact absurd hs (by simp)
  | .unit .Y n =>
    have hn' : 1 ≤ n := hn .Y n rfl
    simp only [Option.bind_eq_bind, Option.bind_eq_some] at hres
    obtain ⟨base, hbase, s, hs, hp'⟩ := hres
    cases hp'
    dsimp only
    obtain ⟨hb', hy, hm1, hm2, hd1, hd2⟩ := mkDate_some hbase
    subst hb'
    unfold addOneDay at hs
    split at hs
    · cases hs
      refine succD_le_of_mc ⟨hm1, hm2⟩ hv ?_
      unfold mc
      dsimp only
      omega
    · exact absurd hs (by simp)

/-- Witness for C8 amended at the spec's own example: `period_ending` on
end day 2026-03-31 with token `"1M"` gives the period 2026-03-01 ..
2026-03-31, and its start is at most its end. -/
theorem c8_period_invariant_amended_witness :
    ValidMD ⟨2026, 3, 31⟩ ∧
    period_ending ⟨2026, 3, 31⟩ "1M" = some ⟨⟨2026, 3, 1⟩, ⟨2026, 3, 31⟩⟩ ∧
    dateLe ⟨2026, 3, 1⟩ ⟨2026, 3, 31⟩ :=
  ⟨by decide, by decide,
    c8_period_invariant_amended ⟨2026, 3, 31⟩ (by decide) "1M" (.unit .M 1)
      (by decide) (by intro u n h; cases h; omega)
      ⟨⟨2026, 3, 1⟩, ⟨2026, 3, 31⟩⟩ (by decide)⟩

/-! ### Parse failures (§7 taxonomy, as the `ValueError`s bot.py raises) -/

inductive PErr where
  | empty : PErr
  | missingDay : PErr
  | invalidDate : PErr
  | badNum : PErr
  | badInt : PErr
  | noColon : PErr
  | missingSection (name : String) : PErr
  | incomplete (name : String) : PErr
  deriving DecidableEq, Repr

/-! ### Numeric literal helpers `_num` / `_int` (bot.py lines 737-748)

`float()` / `int()` are modelled on sign + digit (+ decimal point) literals,
the forms reachable through `_num` / `_int`; exponent notation, `inf`/`nan`
and underscore digit separators are outside the modelled fragment. -/

def pyFloatUnsigned (s : List Char) : Option ℚ :=
  match breakAt '.' s with
  | none =>
    if s ≠ [] ∧ s.all isDigitCh then some (mkRat (natOfDigits s) 1) else none
  | some (a, b) =>
    if (a ≠ [] ∨ b ≠ []) ∧ a.all isDigitCh ∧ b.all isDigitCh
    then some (mkRat (natOfDigits a * 10 ^ b.length + natOfDigits b) (10 ^ b.length))
    else none

def pyFloat (s : List Char) : Option ℚ :=
  match s with
  | [] => none
  | c :: rest =>
    if c = '-' then (pyFloatUnsigned rest).map (fun q => -q)
    else if c = '+' then pyFloatUnsigned rest
    else pyFloatUnsigned (c :: rest)

def pyInt (s : List Char) : Option ℤ :=
  match s with
  | [] => none
  | c :: rest =>
    if c = '-' then
      if rest ≠ [] ∧ rest.all isDigitCh then some (-(natOfDigits rest : ℤ)) else none
    else if c = '+' then
      if rest ≠ [] ∧ rest.all isDigitCh then some ((natOfDigits rest : ℤ)) else none
    else
      if (c :: rest).all isDigitCh then some ((natOfDigits (c :: rest) : ℤ)) else none

/-- The test `re.fullmatch(r"[\d\.]+,\d+", s)` in `_num`: exactly one comma,
a nonempty digits-and-dots part before it, nonempty digits after it. -/
def commaForm (s : List Char) : Bool :=
  match splitChar ',' s with
  | [a, b] =>
    a ≠ [] && a.all (fun c => isDigitCh c || c = '.') && b ≠ [] && b.all isDigitCh
  | _ => false

/-- bot.py `_num`: strip, drop the currency sign and spaces; when the string
is in digits-dot-comma-digits form drop the dots; then turn every comma into
a dot and parse as `float`. -/
def _num (s : List Char) : Except PErr ℚ :=
  let s1 := pyStrip s
  let s2 := s1.filter (fun c => c ≠ '€' && c ≠ ' ')
  let s3 := if commaForm s2 then s2.filter (fun c => c ≠ '.') else s2
  let s4 := s3.map (fun c => if c = ',' then '.' else c)
  match pyFloat s4 with
  | some q => .ok q
  | none => .error .badNum

/-- bot.py `_int`: strip, keep only digits and minus signs
(`re.sub(r"[^\d\-]", "", s)`), then parse as `int`. -/
def _int (s : List Char) : Except PErr ℤ :=
  let s1 := pyStrip s
  let s2 := s1.filter (fun c => isDigitCh c || c = '-')
  match pyInt s2 with
  | some n => .ok n
  | none => .error .badInt

/-! ### Date literals: `parse_any_date` (bot.py lines 289-301) -/

def dateOrInvalid (y m d : ℤ) : Except PErr Date :=
  match mkDate y m d with
  | some dt => .ok dt
  | none => .error .invalidDate

/-- bot.py `parse_any_date`: strip; a `\d{4}-\d{2}-\d{2}` string is read as
ISO year-month-day, a `\d{2}/\d{2}/\d{4}` string as day/month/year; anything
else (or a non-existent calendar date, where `strptime` raises) is an
invalid-date failure. -/
def parse_any_date (s : List Char) : Except PErr Date :=
  match pyStrip s with
  | [a, b, c, d, e, f, g, h, i, j] =>
    if e = '-' ∧ h = '-' ∧ ([a, b, c, d, f, g, i, j].all isDigitCh) = true then
      dateOrInvalid (natOfDigits [a, b, c, d]) (natOfDigits [f, g]) (natOfDigits [i, j])
    else if c = '/' ∧ f = '/' ∧ ([a, b, d, e, g, h, i, j].all isDigitCh) = true then
      dateOrInvalid (natOfDigits [g, h, i, j]) (natOfDigits [d, e]) (natOfDigits [a, b])
    else .error .invalidDate
  | _ => .error .invalidDate

/-! ### List helper lemmas for the `_num` analysis -/

theorem dropWhile_id (p : Char → Bool) (l : List Char)
    (h : ∀ c ∈ l, p c = false) : l.dropWhile p = l := by
  cases l with
  | nil => rfl
  | cons c rest => simp [List.dropWhile_cons, h c (List.mem_cons_self c rest)]

theorem pyStrip_id (l : List Char) (h : ∀ c ∈ l, isSpaceCh c = false) :
    pyStrip l = l := by
  unfold pyStrip
  rw [dropWhile_id _ _ h, dropWhile_id, List.reverse_reverse]
  intro c hc
  exact h c (List.mem_reverse.mp hc)

theorem map_id_of (f : Char → Char) (l : List Char) (h : ∀ c ∈ l, f c = c) :
    l.map f = l := by
  induction l with
  | nil => rfl
  | cons c rest ih =>
    simp only [List.map_cons, h c (by simp), ih (fun d hd => h d (by simp [hd]))]

theorem splitChar_ne_nil (sep : Char) (l : List Char) : splitChar sep l ≠ [] := by
  cases l with
  | nil => simp [splitChar]
  | cons c rest =>
    cases hsp : splitChar sep rest with
    | nil => simp [splitChar, hsp]
    | cons w ws =>
      simp only [splitChar, hsp]
      split <;> simp

theorem splitChar_no_sep (sep : Char) (l : List Char) (h : sep ∉ l) :
    splitChar sep l = [l] := by
  induction l with
  | nil => rfl
  | cons c rest ih =>
    have h1 : sep ∉ rest := fun hc => h (List.mem_cons_of_mem c hc)
    have h2 : ¬ c = sep := fun hc => h (by rw [hc]; exact List.mem_cons_self sep rest)
    simp [splitChar, ih h1, h2]

theorem splitChar_append (sep : Char) (a b : List Char) (h : sep ∉ a) :
    splitChar sep (a ++ sep :: b) = a :: splitChar sep b := by
  induction a with
  | nil =>
    cases hb : splitChar sep b with
    | nil => exact absurd hb (splitChar_ne_nil sep b)
    | cons w ws => simp [splitChar, hb]
  | cons c rest ih =>
    have h1 : sep ∉ rest := fun hc => h (List.mem_cons_of_mem c hc)
    have h2 : ¬ c = sep := fun hc => h (by rw [hc]; exact List.mem_cons_self sep rest)
    simp [splitChar, ih h1, h2]

theorem breakAt_no_sep (sep : Char) (l : List Char) (h : sep ∉ l) :
    breakAt sep l = none := by
  induction l with
  | nil => rfl
  | cons c rest ih =>
    have h1 : sep ∉ rest := fun hc => h (List.mem_cons_of_mem c hc)
    have h2 : ¬ c = sep := fun hc => h (by rw [hc]; exact List.mem_cons_self sep rest)
    simp [breakAt, ih h1, h2]

theorem breakAt_append (sep : Char) (a b : List Char) (h : sep ∉ a) :
    breakAt sep (a ++ sep :: b) = some (a, b) := by
  induction a with
  | nil => simp [breakAt]
  | cons c rest ih =>
    have h1 : sep ∉ rest := fun hc => h (List.mem_cons_of_mem c hc)
    have h2 : ¬ c = sep := fun hc => h (by rw [hc]; exact List.mem_cons_self sep rest)
    simp [breakAt, ih h1, h2]

instance {ε α : Type} [DecidableEq ε] [DecidableEq α] : DecidableEq (Except ε α) :=
  fun x y =>
    match x, y with
    | .error e, .error f =>
      if h : e = f then isTrue (by rw [h]) else
        isFalse (by intro hh; injection hh; contradiction)
    | .ok a, .ok b =>
      if h : a = b then isTrue (by rw [h]) else
        isFalse (by intro hh; injection hh; contradiction)
    | .error _, .ok _ => isFalse (by intro hh; injection hh)
    | .ok _, .error _ => isFalse (by intro hh; injection hh)

theorem digit_not_special (c : Char) (h : isDigitCh c = true) :
    isSpaceCh c = false ∧ ¬ c = ',' ∧ ¬ c = '€' ∧ ¬ c = ' ' ∧ ¬ c = '.' ∧
    ¬ c = '-' ∧ ¬ c = '+' := by
  refine ⟨?_, ?_, ?_, ?_, ?_, ?_, ?_⟩
  · unfold isSpaceCh
    simp only [Bool.or_eq_false_iff, decide_eq_false_iff_not]
    repeat' apply And.intro
    all_goals exact fun e => by subst e; exact absurd h (by decide)
  all_goals exact fun e => by subst e; exact absurd h (by decide)

theorem digitdot_not_special (c : Char) (h : isDigitCh c = true ∨ c = '.') :
    isSpaceCh c = false ∧ ¬ c = ',' ∧ ¬ c = '€' ∧ ¬ c = ' ' := by
  rcases h with h | h
  · obtain ⟨h1, h2, h3, h4, _⟩ := digit_not_special c h
    exact ⟨h1, h2, h3, h4⟩
  · subst h; refine ⟨by decide, by decide, by decide, by decide⟩

/-- `pyFloat` on a digits-dot-digits decomposition evaluates to integer part
plus scaled fractional part. -/
theorem pyFloat_digits (a b : List Char) (hda : ∀ c ∈ a, isDigitCh c = true)
    (hdb : ∀ c ∈ b, isDigitCh c = true) (hb : b ≠ []) :
    pyFloat (a ++ '.' :: b) =
      some (mkRat (natOfDigits a * 10 ^ b.length + natOfDigits b) (10 ^ b.length)) := by
  have hnodot : '.' ∉ a := fun hc => ((digit_not_special _ (hda _ hc)).2.2.2.2.1) rfl
  have hbrk := breakAt_append '.' a b hnodot
  cases a with
  | nil =>
    rw [List.nil_append] at hbrk ⊢
    unfold pyFloat
    dsimp only
    rw [if_neg (show ¬ ('.' : Char) = '-' from by decide),
        if_neg (show ¬ ('.' : Char) = '+' from by decide)]
    unfold pyFloatUnsigned
    rw [hbrk]
    dsimp only
    rw [if_pos ⟨Or.inr hb, rfl, List.all_eq_true.mpr hdb⟩]
  | cons c rest =>
    have hc := hda c (List.mem_cons_self c rest)
    rw [List.cons_append]
    unfold pyFloat
    dsimp only
    rw [if_neg (digit_not_special c hc).2.2.2.2.2.1,
        if_neg (digit_not_special c hc).2.2.2.2.2.2]
    rw [← List.cons_append]
    unfold pyFloatUnsigned
    rw [hbrk]
    dsimp only
    rw [if_pos ⟨Or.inl (by simp), List.all_eq_true.mpr hda, List.all_eq_true.mpr hdb⟩]

/-! ### Claim C6: the `_num` separator heuristic -/

/-- C6 counterexample: on `"1,234.56"` — both separators present — `_num`
does not return 1234.56; the comma is turned into a dot giving the
unparseable `"1.234.56"`, an invalid-number failure. -/
theorem c6_num_counterexample :
    _num ("1,234.56".data) = .error .badNum ∧
    ∀ q : ℚ, _num ("1,234.56".data) ≠ .ok q := by
  constructor
  · decide
  · intro q h
    rw [(by decide : _num ("1,234.56".data) = .error .badNum)] at h
    exact Except.noConfusion h

/-- C6 amended: the heuristic applies only to strings of the shape
digits-and-dots, comma, digits: there every dot is dropped as a thousands
separator and the comma becomes the decimal point.  (On other mixed-separator
strings such as "1,234.56" the comma is blindly turned into a dot and
parsing fails with an invalid-number error.) -/
theorem c6_num_amended (a b : List Char) (ha : a ≠ []) (hb : b ≠ [])
    (hda : ∀ c ∈ a, isDigitCh c = true ∨ c = '.')
    (hdb : ∀ c ∈ b, isDigitCh c = true) :
    _num (a ++ ',' :: b) =
      .ok (mkRat (natOfDigits (a.filter (fun c => ¬ c = '.')) * 10 ^ b.length +
                  natOfDigits b) (10 ^ b.length)) := by
  have hsp : ∀ c ∈ a ++ ',' :: b, isSpaceCh c = false := by
    intro c hc
    rcases List.mem_append.mp hc with h | h
    · exact (digitdot_not_special c (hda c h)).1
    · rcases List.mem_cons.mp h with h | h
      · subst h; decide
      · exact (digit_not_special c (hdb c h)).1
  have hkeep : ∀ c ∈ a ++ ',' :: b, (decide (¬ c = '€') && decide (¬ c = ' ')) = true := by
    intro c hc
    rcases List.mem_append.mp hc with h | h
    · have hp := digitdot_not_special c (hda c h)
      simp [hp.2.2.1, hp.2.2.2]
    · rcases List.mem_cons.mp h with h | h
      · subst h; decide
      · have hp := digit_not_special c (hdb c h)
        simp [hp.2.2.1, hp.2.2.2.1]
  have hnca : ',' ∉ a := fun hc => ((digitdot_not_special _ (hda _ hc)).2.1) rfl
  have hncb : ',' ∉ b := fun hc => ((digit_not_special _ (hdb _ hc)).2.1) rfl
  have hcf : commaForm (a ++ ',' :: b) = true := by
    unfold commaForm
    rw [splitChar_append ',' a b hnca, splitChar_no_sep ',' b hncb]
    simp only [Bool.and_eq_true, decide_eq_true_eq, List.all_eq_true]
    exact ⟨⟨⟨ha, fun c hc => by simp [hda c hc]⟩, hb⟩, hdb⟩
  have hbfilter : b.filter (fun c => decide (¬ c = '.')) = b :=
    List.filter_eq_self.mpr (fun c hc => by
      simp [(digit_not_special c (hdb c hc)).2.2.2.2.1])
  have hfilterdot :
      (a ++ ',' :: b).filter (fun c => decide (¬ c = '.')) =
        a.filter (fun c => decide (¬ c = '.')) ++ ',' :: b := by
    rw [List.filter_append, List.filter_cons,
        if_pos (show (fun c => decide (¬ c = '.')) ',' = true from by decide), hbfilter]
  have hbmap : b.map (fun c => if c = ',' then '.' else c) = b :=
    map_id_of _ _ (fun c hc => by
      rw [if_neg ((digit_not_special c (hdb c hc)).2.1)])
  have hamap : (a.filter (fun c => decide (¬ c = '.'))).map
      (fun c => if c = ',' then '.' else c) = a.filter (fun c => decide (¬ c = '.')) :=
    map_id_of _ _ (fun c hc => by
      rcases List.mem_filter.mp hc with ⟨hca, _⟩
      rw [if_neg ((digitdot_not_special c (hda c hca)).2.1)])
  have hmap :
      (a.filter (fun c => decide (¬ c = '.')) ++ ',' :: b).map
          (fun c => if c = ',' then '.' else c) =
        a.filter (fun c => decide (¬ c = '.')) ++ '.' :: b := by
    rw [List.map_append, List.map_cons, hamap, if_pos rfl, hbmap]
  have hfa : ∀ c ∈ a.filter (fun c => decide (¬ c = '.')), isDigitCh c = true := by
    intro c hc
    rcases List.mem_filter.mp hc with ⟨hca, hne⟩
    rcases hda c hca with h | h
    · exact h
    · simp [h] at hne
  unfold _num
  dsimp only
  rw [pyStrip_id _ hsp, List.filter_eq_self.mpr hkeep, if_pos hcf,
      hfilterdot, hmap, pyFloat_digits _ _ hfa hdb hb]

/-- Witness for C6 amended, at the two comma-decimal literals of the spec's
§8 block: thousands-dot plus decimal-comma, and plain decimal-comma. -/
theorem c6_num_amended_witness :
    _num ("7.199,50".data) = .ok (7199.5 : ℚ) ∧
    _num ("799,20".data) = .ok (799.2 : ℚ) := by
  constructor
  · rw [show ("7.199,50".data : List Char) = ['7', '.', '1', '9', '9'] ++ ',' :: ['5', '0']
        from by decide]
    refine (c6_num_amended ['7', '.', '1', '9', '9'] ['5', '0'] (by decide) (by decide)
      (by decide) (by decide)).trans (congrArg Except.ok ?_)
    rw [show (['7', '.', '1', '9', '9'].filter (fun c => ¬ c = '.')) = ['7', '1', '9', '9']
          from by decide,
        show natOfDigits ['7', '1', '9', '9'] = 7199 from by decide,
        show natOfDigits ['5', '0'] = 50 from by decide,
        show (['5', '0'] : List Char).length = 2 from rfl,
        Rat.mkRat_eq_div]
    norm_num
  · rw [show ("799,20".data : List Char) = ['7', '9', '9'] ++ ',' :: ['2', '0']
        from by decide]
    refine (c6_num_amended ['7', '9', '9'] ['2', '0'] (by decide) (by decide)
      (by decide) (by decide)).trans (congrArg Except.ok ?_)
    rw [show (['7', '9', '9'].filter (fun c => ¬ c = '.')) = ['7', '9', '9'] from by decide,
        show natOfDigits ['7', '9', '9'] = 799 from by decide,
        show natOfDigits ['2', '0'] = 20 from by decide,
        show (['2', '0'] : List Char).length = 2 from rfl,
        Rat.mkRat_eq_div]
    norm_num

/-! ### The notes tokenizer (bot.py lines 348-361) -/

/-- The `STOPWORDS` set, transcribed from the triple-quoted literal (the
duplicate "a" of the Spanish row is kept; membership is unaffected). -/
def STOPWORDS : List String :=
  ["a", "an", "the", "and", "or", "but", "if", "then", "else", "for", "to",
   "of", "in", "on", "at", "by", "with", "without", "from", "as", "is",
   "are", "was", "were", "be", "been", "being",
   "i", "you", "he", "she", "it", "we", "they", "me", "him", "her", "us",
   "them", "my", "your", "his", "their", "our", "this", "that", "these",
   "those",
   "de", "la", "el", "los", "las", "y", "o", "pero", "si", "entonces",
   "para", "a", "en", "con", "sin", "por", "del", "al", "es", "son", "fue",
   "fueron", "ser", "estar",
   "test"]

/-- The character class of `re.sub(r"[^a-z0-9áéíóúñüç]+", " ", text)`. -/
def allowedTok (c : Char) : Bool :=
  ('a' ≤ c && c ≤ 'z') || ('0' ≤ c && c ≤ '9') ||
  c = 'á' || c = 'é' || c = 'í' || c = 'ó' || c = 'ú' ||
  c = 'ñ' || c = 'ü' || c = 'ç'

/-- The regex substitution above: each maximal run of characters outside the
class becomes a single space (`inRun` records being inside such a run). -/
def subNonTok (inRun : Bool) : List Char → List Char
  | [] => []
  | c :: rest =>
    if allowedTok c then c :: subNonTok false rest
    else if inRun then subNonTok inRun rest
    else ' ' :: subNonTok true rest

/-- Model of Python `str.split()` (no argument): maximal runs of
non-whitespace; `acc` is the current word, reversed. -/
def splitWSAux (acc : List Char) : List Char → List (List Char)
  | [] => if acc = [] then [] else [acc.reverse]
  | c :: rest =>
    if isSpaceCh c then
      if acc = [] then splitWSAux [] rest else acc.reverse :: splitWSAux [] rest
    else splitWSAux (c :: acc) rest

def pySplitWS (l : List Char) : List (List Char) := splitWSAux [] l

/-- bot.py `tokenize`: lowercase, collapse non-alphanumeric runs to spaces,
split on whitespace, keep words that are not stopwords and have length at
least 3. -/
def tokenize (text : String) : List String :=
  let t := pyLower text.data
  let t2 := subNonTok false t
  let ws := (pySplitWS t2).map (fun w => pyStrip w)
  let ws2 := ws.filter (fun w => ¬ w = [])
  (ws2.map (fun w => String.mk w)).filter
    (fun w => !STOPWORDS.contains w && 3 ≤ w.length)

theorem mem_of_mem_dropWhile {c : Char} {p : Char → Bool} :
    ∀ {l : List Char}, c ∈ l.dropWhile p → c ∈ l := by
  intro l
  induction l with
  | nil => intro h; exact absurd h (by simp)
  | cons d rest ih =>
    intro h
    rw [List.dropWhile_cons] at h
    split at h
    · exact List.mem_cons_of_mem d (ih h)
    · exact h

theorem mem_of_mem_pyStrip {c : Char} {l : List Char} (h : c ∈ pyStrip l) :
    c ∈ l := by
  unfold pyStrip at h
  exact mem_of_mem_dropWhile
    (List.mem_reverse.mp (mem_of_mem_dropWhile (List.mem_reverse.mp h)))

theorem subNonTok_mem (l : List Char) :
    ∀ b c, c ∈ subNonTok b l → allowedTok c = true ∨ c = ' ' := by
  induction l with
  | nil => intro b c hc; exact absurd hc (by simp [subNonTok])
  | cons d rest ih =>
    intro b c hc
    unfold subNonTok at hc
    split at hc
    · rcases List.mem_cons.mp hc with h | h
      · subst h; left; assumption
      · exact ih false c h
    · split at hc
      · exact ih b c hc
      · rcases List.mem_cons.mp hc with h | h
        · right; exact h
        · exact ih true c h

theorem splitWSAux_mem (l : List Char) :
    ∀ acc, (∀ c ∈ acc, isSpaceCh c = false) →
    ∀ w ∈ splitWSAux acc l, ∀ c ∈ w, (c ∈ acc ∨ c ∈ l) ∧ isSpaceCh c = false := by
  induction l with
  | nil =>
    intro acc hacc w hw c hc
    unfold splitWSAux at hw
    split at hw
    · exact absurd hw (by simp)
    · rcases List.mem_singleton.mp hw with h
      subst h
      exact ⟨Or.inl (List.mem_reverse.mp hc), hacc c (List.mem_reverse.mp hc)⟩
  | cons d rest ih =>
    intro acc hacc w hw c hc
    unfold splitWSAux at hw
    split at hw
    · split at hw
      · obtain ⟨h1, h2⟩ := ih [] (by simp) w hw c hc
        rcases h1 with h1 | h1
        · exact absurd h1 (by simp)
        · exact ⟨Or.inr (List.mem_cons_of_mem d h1), h2⟩
      · rcases List.mem_cons.mp hw with h | h
        · subst h
          exact ⟨Or.inl (List.mem_reverse.mp hc), hacc c (List.mem_reverse.mp hc)⟩
        · obtain ⟨h1, h2⟩ := ih [] (by simp) w h c hc
          rcases h1 with h1 | h1
          · exact absurd h1 (by simp)
          · exact ⟨Or.inr (List.mem_cons_of_mem d h1), h2⟩
    · next hd =>
      obtain ⟨h1, h2⟩ := ih (d :: acc)
        (by
          intro e he
          rcases List.mem_cons.mp he with h | h
          · subst h; simp only [Bool.not_eq_true] at hd; exact hd
          · exact hacc e h) w hw c hc
      rcases h1 with h1 | h1
      · rcases List.mem_cons.mp h1 with h1 | h1
        · exact ⟨Or.inr (h1 ▸ List.mem_cons_self d rest), h2⟩
        · exact ⟨Or.inl h1, h2⟩
      · exact ⟨Or.inr (List.mem_cons_of_mem d h1), h2⟩


/-! ### Claim C7: tokenizer output -/

/-- C7 counterexample: `tokenize "Staff: dog 123"` keeps the heading word
"staff" (the claim's template-noise set), the length-3 token "dog" (claim
demands length > 3) and the all-digit token "123" (claim demands alphabetic
only). -/
theorem c7_tokenize_counterexample :
    tokenize "Staff: dog 123" = ["staff", "dog", "123"] ∧
    ("dog" : String).length = 3 ∧
    ("123" : String).data.all isDigitCh = true := by
  refine ⟨by decide, by decide, by decide⟩

/-- C7 amended: every token `tokenize` returns has length at least 3 (not
strictly above 3), is outside the single combined stopword list (English +
Spanish + "test"; there is no separate template-noise set, so heading words
like "staff" pass), and consists of characters from the lowered class
a-z, 0-9 and the accented letters (digits are allowed). -/
theorem c7_tokenize_amended (text : String) (w : String) (hw : w ∈ tokenize text) :
    3 ≤ w.length ∧ ¬ w ∈ STOPWORDS ∧ ∀ c ∈ w.data, allowedTok c = true := by
  unfold tokenize at hw
  rcases List.mem_filter.mp hw with ⟨hmem, hcond⟩
  simp only [Bool.and_eq_true, Bool.not_eq_true', decide_eq_true_eq] at hcond
  obtain ⟨hstop, hlen⟩ := hcond
  refine ⟨hlen, ?_, ?_⟩
  · intro hmemstop
    simp only [List.contains, List.elem_eq_mem, decide_eq_false_iff_not] at hstop
    exact hstop hmemstop
  · intro c hc
    rcases List.mem_map.mp hmem with ⟨wl, hwl, hweq⟩
    subst hweq
    rcases List.mem_filter.mp hwl with ⟨hwl2, _⟩
    rcases List.mem_map.mp hwl2 with ⟨v, hv, hveq⟩
    subst hveq
    have hc' : c ∈ v := mem_of_mem_pyStrip hc
    obtain ⟨h1, h2⟩ := splitWSAux_mem _ [] (by simp) v hv c hc'
    rcases h1 with h1 | h1
    · exact absurd h1 (by simp)
    · rcases subNonTok_mem _ false c h1 with h | h
      · exact h
      · subst h; exact absurd h2 (by simp [isSpaceCh])

/-- Witness for C7 amended at the spec's own tokenizer example sentence,
instantiated at the retained token "music". -/
theorem c7_tokenize_amended_witness :
    3 ≤ ("music" : String).length ∧ ¬ ("music" : String) ∈ STOPWORDS ∧
    ∀ c ∈ ("music" : String).data, allowedTok c = true :=
  c7_tokenize_amended "The music was too loud again, música muy alta" "music"
    (by decide)

/-! ### The structured report parser (bot.py lines 767-838)

The `do`-chains of exceptions are written as explicit matches (the
desugared form), which keeps the stepwise failure propagation visible. -/

/-- The value `find_line` returns for a matched line: the part after the
first colon, stripped; with no colon, the remainder after the prefix. -/
def lineValue (raw pfx : List Char) : List Char :=
  match breakAt ':' raw with
  | some pr => pyStrip pr.2
  | none => pyStrip (raw.drop pfx.length)

/-- bot.py `find_line` (nested in `parse_full_report_block`): first line
whose stripped text starts, case-insensitively, with one of the prefixes. -/
def find_line (lines : List (List Char)) (pfxs : List (List Char)) :
    Option (List Char) :=
  match lines with
  | [] => none
  | l :: rest =>
    let raw := pyStrip l
    match pfxs.find? (fun p => startsWithCI p raw) with
    | some p => some (lineValue raw p)
    | none => find_line rest pfxs

/-- Python `x or d` on an optional string: `d` when `x` is `None` or empty
(falsy). -/
def pyOr (o : Option (List Char)) (d : List Char) : List Char :=
  match o with
  | none => d
  | some s => if s = [] then d else s

/-- `_int(ln.split(":", 1)[1])`: everything after the first colon through
`_int`; no colon is Python's `IndexError`. -/
def colonTailInt (ln : List Char) : Except PErr ℤ :=
  match breakAt ':' ln with
  | none => .error .noColon
  | some pr => _int pr.2

/-- The bounded forward scan of `parse_section`: sub-field label-prefix
matching with mutable `pax`/`walkins`/`noshows` slots, stopping after a
line that is itself a service heading. -/
def scanWin : List (List Char) → Option ℤ → Option ℤ → Option ℤ →
    Except PErr (Option ℤ × Option ℤ × Option ℤ)
  | [], p, w, n => .ok (p, w, n)
  | ln0 :: rest, p, w, n =>
    let ln := pyStrip ln0
    if ln = [] then scanWin rest p w n
    else
      let low := pyLower ln
      match
        (if startsWithCS ("pax".data) low then
          match colonTailInt ln with
          | .error e => .error e
          | .ok v => .ok (some v, w, n)
        else if startsWithCS ("walk in".data) low ||
                startsWithCS ("walk-in".data) low ||
                startsWithCS ("walkin".data) low then
          match colonTailInt ln with
          | .error e => .error e
          | .ok v => .ok (p, some v, n)
        else if startsWithCS ("no show".data) low ||
                startsWithCS ("no-show".data) low ||
                startsWithCS ("noshow".data) low then
          match colonTailInt ln with
          | .error e => .error e
          | .ok v => .ok (p, w, some v)
        else .ok (p, w, n) :
          Except PErr (Option ℤ × Option ℤ × Option ℤ)) with
      | .error e => .error e
      | .ok (p1, w1, n1) =>
        if startsWithCS ("dinner:".data) low || startsWithCS ("lunch:".data) low then
          .ok (p1, w1, n1)
        else scanWin rest p1 w1 n1

def strippedLines (t : List Char) : List (List Char) :=
  (pySplitlines t).map pyStrip

/-- Index of the first line starting (lowercased) with `name` + ":". -/
def sectionHeadIdx (t : List Char) (name : String) : Option ℕ :=
  (strippedLines t).findIdx?
    (fun ln => startsWithCS (pyLower name.data ++ [':']) (pyLower ln))

/-- `_num(lines[idx].split(":", 1)[1].strip())`: the service's own sales
value, inline with its heading. -/
def headSales (lines : List (List Char)) (idx : ℕ) : Except PErr ℚ :=
  match breakAt ':' (lines.getD idx []) with
  | some pr => _num (pyStrip pr.2)
  | none => .error .noColon

structure SectionData where
  sales : ℚ
  pax : ℤ
  walkins : ℤ
  noshows : ℤ
  deriving DecidableEq, Repr

/-- bot.py `parse_section` (nested in `parse_full_report_block`): locate the
heading, read its inline sales, scan the next (at most) 9 lines for the
three sub-fields, and fail naming the section when one is missing. -/
def parse_section (t : List Char) (name : String) : Except PErr SectionData :=
  let lines := strippedLines t
  match sectionHeadIdx t name with
  | none => .error (.missingSection name)
  | some idx =>
    match headSales lines idx with
    | .error e => .error e
    | .ok sales =>
      match scanWin ((lines.drop (idx + 1)).take 9) none none none with
      | .error e => .error e
      | .ok (p, w, n) =>
        match p, w, n with
        | some pv, some wv, some nv => .ok ⟨sales, pv, wv, nv⟩
        | _, _, _ => .error (.incomplete name)

structure DailyFull where
  day : Date
  total_sales : ℚ
  visa : ℚ
  cash : ℚ
  tips : ℚ
  lunch_sales : ℚ
  lunch_pax : ℤ
  lunch_walkins : ℤ
  lunch_noshows : ℤ
  dinner_sales : ℚ
  dinner_pax : ℤ
  dinner_walkins : ℤ
  dinner_noshows : ℤ
  deriving DecidableEq, Repr

/-- bot.py `parse_full_report_block`. -/
def parse_full_report_block (text : String) : Except PErr DailyFull :=
  let t := pyStrip text.data
  if t = [] then .error .empty
  else
    let lines := pySplitlines t
    match find_line lines ["Day".data] with
    | none => .error .missingDay
    | some ds =>
      if ds = [] then .error .missingDay
      else
        match parse_any_date ds with
        | .error e => .error e
        | .ok day =>
          match _num (pyOr (find_line lines
              ["Total Sales Day".data, "Total Sales".data]) []) with
          | .error e => .error e
          | .ok total_sales =>
            match _num (pyOr (find_line lines ["Visa".data]) "0".data) with
            | .error e => .error e
            | .ok visa =>
              match _num (pyOr (find_line lines ["Cash".data]) "0".data) with
              | .error e => .error e
              | .ok cash =>
                match _num (pyOr (find_line lines ["Tips".data]) "0".data) with
                | .error e => .error e
                | .ok tips =>
                  match parse_section t "Lunch" with
                  | .error e => .error e
                  | .ok lunch =>
                    match parse_section t "Dinner" with
                    | .error e => .error e
                    | .ok dinner =>
                      .ok ⟨day, total_sales, visa, cash, tips,
                           lunch.sales, lunch.pax, lunch.walkins, lunch.noshows,
                           dinner.sales, dinner.pax, dinner.walkins, dinner.noshows⟩

/-- `covers = int(d["lunch_pax"] + d["dinner_pax"])`, as computed at every
save site (`on_text` PATCH B, `/setfull`, `/confirmfull`). -/
def covers (d : DailyFull) : ℤ := d.lunch_pax + d.dinner_pax

/-! ### Claim C1: the spec §8 example block -/

/-- The literal report block of spec §8. -/
def specExampleBlock : String :=
  "Day: 24/01/2026\nTotal Sales Day: 7199,50\nVisa: 6400,30\nCash: 799,20\nTips: 103,60\nLunch: 2341,30\nPax: 50\nWalk in: 3\nNo show: 7\nDinner: 4858,20\nPax: 106\nWalk in: 2\nNo show: 4"

/-- C1: parsing the spec's §8 block succeeds with day 2026-01-24, total
sales 7199.50, lunch pax 50, dinner pax 106, and covers (lunch pax +
dinner pax) 156. -/
theorem c1_full_example :
    ∃ r : DailyFull, parse_full_report_block specExampleBlock = .ok r ∧
      r.day = ⟨2026, 1, 24⟩ ∧ r.total_sales = (7199.5 : ℚ) ∧
      r.lunch_pax = 50 ∧ r.dinner_pax = 106 ∧ covers r = 156 := by
  refine ⟨⟨⟨2026, 1, 24⟩, mkRat 719950 100, mkRat 640030 100, mkRat 79920 100,
           mkRat 10360 100, mkRat 234130 100, 50, 3, 7, mkRat 485820 100,
           106, 2, 4⟩, by decide, rfl, ?_, rfl, rfl, by decide⟩
  show mkRat 719950 100 = (7199.5 : ℚ)
  rw [Rat.mkRat_eq_div]
  norm_num

/-! ### Claim C2: missing `Total Sales Day` -/

/-- A block with a valid Day line and both complete service sub-blocks but
no `Total Sales Day` line. -/
def c2Block : String :=
  "Day: 24/01/2026\nLunch: 100\nPax: 1\nWalk in: 1\nNo show: 1\nDinner: 200\nPax: 2\nWalk in: 2\nNo show: 2"

/-- C2 counterexample: with both service sales present but the
`Total Sales Day` line absent, the parser does not succeed with the derived
sum — `float("")` fails, an invalid-number error. -/
theorem c2_counterexample :
    parse_full_report_block c2Block = .error .badNum ∧
    ∀ r : DailyFull, parse_full_report_block c2Block ≠ .ok r := by
  have h : parse_full_report_block c2Block = .error .badNum := by decide
  exact ⟨h, fun r hr => by rw [h] at hr; exact Except.noConfusion hr⟩

/-- C2 amended: whenever the Day line is present and parses but no line
matches the total-sales labels (or its value is empty), the parser fails
with the invalid-number error from `float("")`; it never derives
`total_sales` from the service sales, and no `MissingRequiredField`-style
failure for it exists. -/
theorem c2_amended (text : String) (ds : List Char) (d : Date)
    (hfind : find_line (pySplitlines (pyStrip text.data)) ["Day".data] = some ds)
    (hne : ¬ ds = [])
    (hdate : parse_any_date ds = .ok d)
    (htot : pyOr (find_line (pySplitlines (pyStrip text.data))
        ["Total Sales Day".data, "Total Sales".data]) [] = []) :
    parse_full_report_block text = .error .badNum := by
  have htne : ¬ pyStrip text.data = [] := by
    intro h0
    rw [h0] at hfind
    have hnone : find_line (pySplitlines ([] : List Char)) ["Day".data] = none := rfl
    rw [hnone] at hfind
    exact Option.noConfusion hfind
  unfold parse_full_report_block
  dsimp only
  rw [if_neg htne, hfind]
  dsimp only
  rw [if_neg hne, hdate]
  dsimp only
  rw [htot, show _num ([] : List Char) = .error .badNum from by decide]

/-- Witness for C2 amended at the concrete block above. -/
theorem c2_amended_witness :
    parse_full_report_block c2Block = .error .badNum :=
  c2_amended c2Block ("24/01/2026".data) ⟨2026, 1, 24⟩
    (by decide) (by decide) (by decide) (by decide)

/-! ### Claim C3: incomplete service sub-blocks -/

/-- A successful parse forces both service sections to have parsed. -/
theorem parse_ok_sections (text : String) (r : DailyFull)
    (h : parse_full_report_block text = .ok r) :
    (∃ sl, parse_section (pyStrip text.data) "Lunch" = .ok sl) ∧
    (∃ sd, parse_section (pyStrip text.data) "Dinner" = .ok sd) := by
  unfold parse_full_report_block at h
  dsimp only at h
  repeat' split at h
  all_goals try exact Except.noConfusion h
  exact ⟨⟨_, by assumption⟩, ⟨_, by assumption⟩⟩

/-- C3 counterexample: for the one-line block "Lunch: 5" the claim's premise
holds (the Lunch heading is present and its window has no Pax / Walk in /
No show lines at all), yet the parser's failure is the missing-Day error,
not a failure naming the incomplete section. -/
theorem c3_counterexample :
    sectionHeadIdx (pyStrip ("Lunch: 5").data) "Lunch" = some 0 ∧
    ((strippedLines (pyStrip ("Lunch: 5").data)).drop 1).take 9 = [] ∧
    parse_full_report_block "Lunch: 5" = .error .missingDay ∧
    PErr.missingDay ≠ PErr.incomplete "Lunch" := by
  refine ⟨by decide, by decide, by decide, by decide⟩

/-- C3 amended: when a service heading is present, its inline sales value
parses, the bounded window scan completes without a numeric failure, and one
of the three sub-field slots is still empty, `parse_section` fails naming
that section; and for such a block `parse_full_report_block` never returns a
record (though its overall failure can be an earlier one, as in the
counterexample). -/
theorem c3_amended (text : String) (name : String) (idx : ℕ) (sales : ℚ)
    (hname : name = "Lunch" ∨ name = "Dinner")
    (hidx : sectionHeadIdx (pyStrip text.data) name = some idx)
    (hsales : headSales (strippedLines (pyStrip text.data)) idx = .ok sales)
    (p w n : Option ℤ)
    (hscan : scanWin (((strippedLines (pyStrip text.data)).drop (idx + 1)).take 9)
        none none none = .ok (p, w, n))
    (hmiss : p = none ∨ w = none ∨ n = none) :
    parse_section (pyStrip text.data) name = .error (.incomplete name) ∧
    ∀ r : DailyFull, parse_full_report_block text ≠ .ok r := by
  have hsec : parse_section (pyStrip text.data) name = .error (.incomplete name) := by
    unfold parse_section
    dsimp only
    rw [hidx]
    dsimp only
    rw [hsales]
    dsimp only
    rw [hscan]
    dsimp only
    rcases hmiss with hm | hm | hm <;> subst hm
    · cases w <;> cases n <;> rfl
    · cases p <;> cases n <;> rfl
    · cases p <;> cases w <;> rfl
  refine ⟨hsec, fun r hr => ?_⟩
  obtain ⟨⟨sl, hl⟩, ⟨sd, hd⟩⟩ := parse_ok_sections text r hr
  rcases hname with hnm | hnm <;> subst hnm
  · rw [hsec] at hl
    exact Except.noConfusion hl
  · rw [hsec] at hd
    exact Except.noConfusion hd

/-- A block whose Dinner sub-block lacks its `No show` line. -/
def c3Block : String :=
  "Day: 24/01/2026\nTotal Sales Day: 300\nLunch: 100\nPax: 1\nWalk in: 1\nNo show: 1\nDinner: 200\nPax: 2\nWalk in: 2"

/-- Witness for C3 amended: omitting `No show` under Dinner yields the
failure naming Dinner, and no record is returned. -/
theorem c3_amended_witness :
    parse_section (pyStrip c3Block.data) "Dinner" = .error (.incomplete "Dinner") ∧
    ∀ r : DailyFull, parse_full_report_block c3Block ≠ .ok r :=
  c3_amended c3Block "Dinner" 6 (mkRat 200 1) (Or.inr rfl)
    (by decide) (by decide) (some 2) (some 2) none (by decide)
    (Or.inr (Or.inr rfl))

/-! ### Claim C9: spike detection -/

/-- Modelled from the spec: the trend engine's `spike_detect` flagging
policy (spec §4.4).  The code under src/ has no spike detection — its
`noteslast` only ranks the most common tokens — so the policy is taken from
the spec's words: flag iff `latest ≥ 2` and `latest ≥ previous + 2`. -/
def spike_flagged (latest previous : ℕ) : Bool :=
  2 ≤ latest && previous + 2 ≤ latest

/-- Modelled from the spec: `spike_detect` keeps exactly the candidate
phrases whose latest-period count passes `spike_flagged` against their
previous-equal-length-period count. -/
def spike_detect (latestCount previousCount : String → ℕ)
    (phrases : List String) : List String :=
  phrases.filter (fun ph => spike_flagged (latestCount ph) (previousCount ph))

/-- C9: a phrase is flagged iff `latest ≥ 2 ∧ latest ≥ previous + 2`;
count 5 against previous 1 is flagged, 2 against 1 is not. -/
theorem c9_spike_policy (latestCount previousCount : String → ℕ)
    (phrases : List String) (ph : String) :
    (ph ∈ spike_detect latestCount previousCount phrases ↔
      ph ∈ phrases ∧ 2 ≤ latestCount ph ∧
        previousCount ph + 2 ≤ latestCount ph) ∧
    spike_flagged 5 1 = true ∧ spike_flagged 2 1 = false := by
  refine ⟨⟨fun hm => ?_, fun hm => ?_⟩, by decide, by decide⟩
  · rcases List.mem_filter.mp hm with ⟨h1, h2⟩
    simp only [spike_flagged, Bool.and_eq_true, decide_eq_true_eq] at h2
    exact ⟨h1, h2.1, h2.2⟩
  · rcases hm with ⟨h1, h2, h3⟩
    exact List.mem_filter.mpr ⟨h1, by simp [spike_flagged, h2, h3]⟩

/-! ### `looks_like_notes_report` (bot.py lines 665-685) -/

/-- The `hits` counter of `looks_like_notes_report`, over the lowercased
text: one point per section-heading group found as a substring. -/
def notesHits (tl : List Char) : ℕ :=
  (if containsSub ("incidents:".data) tl || containsSub ("incidentes:".data) tl ||
      containsSub ("incidencias:".data) tl then 1 else 0) +
  (if containsSub ("staff:".data) tl || containsSub ("personal:".data) tl ||
      containsSub ("equipo:".data) tl then 1 else 0) +
  (if containsSub ("sold out:".data) tl || containsSub ("agotad".data) tl ||
      containsSub ("agotado:".data) tl then 1 else 0) +
  (if containsSub ("complaints:".data) tl || containsSub ("quejas:".data) tl ||
      containsSub ("reclamaciones:".data) tl then 1 else 0)

/-- bot.py `looks_like_notes_report`: at least 3 of the 4 section groups
present. -/
def looks_like_notes_report (t : List Char) : Bool :=
  decide (3 ≤ notesHits (pyLower t))

/-! ### `normalize_spanish_full_report` (bot.py lines 576-631)

The label-rewriting regexes are all of the shape
`^\s*LABEL\s*:` (IGNORECASE, MULTILINE), where LABEL is a sequence of
literal characters, character classes, optional pieces and `\s*` gaps, so
they are modelled by a small token-pattern language applied per line. -/

inductive TokA where
  | lit (c : Char) : TokA
  | cls (cs : List Char) : TokA
  | ws0 : TokA
  deriving Repr

inductive Tok where
  | atom (a : TokA) : Tok
  | opt (g : List TokA) : Tok
  deriving Repr

def matchA (a : TokA) (s : List Char) : Option (List Char) :=
  match a with
  | .lit c =>
    match s with
    | d :: rest => if lowerCh d = lowerCh c then some rest else none
    | [] => none
  | .cls cs =>
    match s with
    | d :: rest => if cs.contains (lowerCh d) then some rest else none
    | [] => none
  | .ws0 => some (s.dropWhile isSpaceCh)

def matchAtoms : List TokA → List Char → Option (List Char)
  | [], s => some s
  | a :: as, s =>
    match matchA a s with
    | none => none
    | some r => matchAtoms as r

/-- Pattern matching with regex semantics for the optional groups: try with
the group, fall back to without it. -/
def matchToks : List Tok → List Char → Option (List Char)
  | [], s => some s
  | .atom a :: ts, s =>
    match matchA a s with
    | none => none
    | some r => matchToks ts r
  | .opt g :: ts, s =>
    match matchAtoms g s with
    | some r =>
      match matchToks ts r with
      | some r2 => some r2
      | none => matchToks ts s
    | none => matchToks ts s

def lits (s : String) : List Tok := s.data.map (fun c => Tok.atom (TokA.lit c))

def wTok : Tok := Tok.atom TokA.ws0

def wsDashCls : List Char := ['-', ' ', '\t', '\n', '\r', '\x0b', '\x0c']

def iAcc : Tok := Tok.atom (TokA.cls ['i', 'í'])

/-- The ordered replacement table of `normalize_spanish_full_report`. -/
def normRules : List (List Tok × List Char) :=
  [ ([wTok] ++ lits "d" ++ [iAcc] ++ lits "a" ++ [wTok] ++ lits ":", "Day:".data),
    ([wTok] ++ lits "venta" ++ [Tok.opt [TokA.lit 's']] ++ [wTok] ++
       lits "totale" ++ [Tok.opt [TokA.lit 's']] ++ [wTok] ++
       [Tok.opt ([TokA.lit 'd', TokA.lit 'e', TokA.lit 'l', TokA.ws0,
                  TokA.lit 'd', TokA.cls ['i', 'í'], TokA.lit 'a'])] ++
       [wTok] ++ lits ":", "Total Sales Day:".data),
    ([wTok] ++ lits "total" ++ [wTok] ++ lits "ventas" ++ [wTok] ++ lits ":",
      "Total Sales Day:".data),
    ([wTok] ++ lits "total" ++ [wTok] ++ lits "del" ++ [wTok] ++ lits "d" ++
       [iAcc] ++ lits "a" ++ [wTok] ++ lits ":", "Total Sales Day:".data),
    ([wTok] ++ lits "tarjeta" ++ [wTok] ++ lits ":", "Visa:".data),
    ([wTok] ++ lits "visa" ++ [wTok] ++ lits ":", "Visa:".data),
    ([wTok] ++ lits "efectivo" ++ [wTok] ++ lits ":", "Cash:".data),
    ([wTok] ++ lits "cash" ++ [wTok] ++ lits ":", "Cash:".data),
    ([wTok] ++ lits "propina" ++ [Tok.opt [TokA.lit 's']] ++ [wTok] ++ lits ":",
      "Tips:".data),
    ([wTok] ++ lits "tips" ++ [wTok] ++ lits ":", "Tips:".data),
    ([wTok] ++ lits "comida" ++ [wTok] ++ lits ":", "Lunch:".data),
    ([wTok] ++ lits "almuerzo" ++ [wTok] ++ lits ":", "Lunch:".data),
    ([wTok] ++ lits "lunch" ++ [wTok] ++ lits ":", "Lunch:".data),
    ([wTok] ++ lits "cena" ++ [wTok] ++ lits ":", "Dinner:".data),
    ([wTok] ++ lits "dinner" ++ [wTok] ++ lits ":", "Dinner:".data),
    ([wTok] ++ lits "persona" ++ [Tok.opt [TokA.lit 's']] ++ [wTok] ++ lits ":",
      "Pax:".data),
    ([wTok] ++ lits "comensales" ++ [wTok] ++ lits ":", "Pax:".data),
    ([wTok] ++ lits "pax" ++ [wTok] ++ lits ":", "Pax:".data),
    ([wTok] ++ lits "sin" ++ [wTok] ++ lits "reserva" ++ [wTok] ++ lits ":",
      "Walk in:".data),
    ([wTok] ++ lits "walk" ++ [Tok.opt [TokA.cls wsDashCls]] ++ lits "in" ++
       [Tok.opt [TokA.lit 's']] ++ [wTok] ++ lits ":", "Walk in:".data),
    ([wTok] ++ lits "walk" ++ [wTok] ++ lits "in" ++ [wTok] ++ lits ":",
      "Walk in:".data),
    ([wTok] ++ lits "ausente" ++ [Tok.opt [TokA.lit 's']] ++ [wTok] ++ lits ":",
      "No show:".data),
    ([wTok] ++ lits "no" ++ [wTok] ++ lits "show" ++ [wTok] ++ lits ":",
      "No show:".data),
    ([wTok] ++ lits "no" ++ [Tok.opt [TokA.cls wsDashCls]] ++ lits "show" ++
       [Tok.opt [TokA.lit 's']] ++ [wTok] ++ lits ":", "No show:".data),
    ([wTok] ++ lits "no" ++ [wTok] ++ lits "asistieron" ++ [wTok] ++ lits ":",
      "No show:".data) ]

/-- One `re.sub` pass (anchored at line start) over every line. -/
def applyRule (pat : List Tok) (rep : List Char)
    (lines : List (List Char)) : List (List Char) :=
  lines.map (fun ln =>
    match matchToks pat ln with
    | some rest => rep ++ rest
    | none => ln)

/-- bot.py `normalize_spanish_full_report` on the character level. -/
def normalize_spanish_full_report (t : List Char) : List Char :=
  if t = [] then t
  else
    List.intercalate ['\n']
      (normRules.foldl (fun ls pr => applyRule pr.1 pr.2 ls) (splitChar '\n' t))

/-! ### The `on_text` dispatch (bot.py lines 1455-1609) -/

inductive ChatRole where
  | opsAdmin : ChatRole
  | ownersSilent : ChatRole
  | managerInput : ChatRole
  | ownersRequests : ChatRole
  deriving DecidableEq, Repr

/-- The state `on_text` consults: the chat's role and the caller's active
capture modes (guided-full, paste-full, report). -/
structure OnTextState where
  role : Option ChatRole
  guidedOn : Bool
  guidedAwaitConfirm : Bool
  fullModeOn : Bool
  reportModeOn : Bool
  deriving DecidableEq, Repr

/-- What `on_text` does with a message: which save (if any) it performs or
which reply path it takes.  The two note-saving sites are PATCH A
(`autoNoteSaved`, line 1476) and explicit report mode (`reportNoteSaved`,
line 1595); the guided-flow internals are collapsed to their reply labels,
which is enough to tell every branch apart. -/
inductive OnTextAction where
  | ignored : OnTextAction
  | autoNoteSaved : OnTextAction
  | autoFullSaved : OnTextAction
  | autoFullParseFailed : OnTextAction
  | guidedAwaitPrompt : OnTextAction
  | guidedStep : OnTextAction
  | pastedFullSaved : OnTextAction
  | pastedFullFailed : OnTextAction
  | reportNoteSaved : OnTextAction
  | ownersSilentNudge : OnTextAction
  | noAction : OnTextAction
  deriving DecidableEq, Repr

/-- The PATCH B trigger: the normalized text contains all four labels. -/
def patchBTrigger (msg : List Char) : Bool :=
  let low := pyLower (normalize_spanish_full_report msg)
  containsSub ("day:".data) low && containsSub ("total sales".data) low &&
  containsSub ("lunch".data) low && containsSub ("dinner".data) low

/-- bot.py `on_text`, as the branch-order-faithful decision function. -/
def on_text_action (st : OnTextState) (text : String) : OnTextAction :=
  let msg := pyStrip text.data
  if msg = [] then .ignored
  else if (st.role = some ChatRole.opsAdmin ∨ st.role = some ChatRole.managerInput) ∧
      looks_like_notes_report msg = true then .autoNoteSaved
  else if (st.role = some ChatRole.opsAdmin ∨ st.role = some ChatRole.managerInput) ∧
      patchBTrigger msg = true then
    match parse_full_report_block ⟨normalize_spanish_full_report msg⟩ with
    | .ok _ => .autoFullSaved
    | .error _ => .autoFullParseFailed
  else if st.guidedOn then
    (if st.guidedAwaitConfirm then .guidedAwaitPrompt else .guidedStep)
  else if st.fullModeOn then
    match parse_full_report_block ⟨normalize_spanish_full_report msg⟩ with
    | .ok _ => .pastedFullSaved
    | .error _ => .pastedFullFailed
  else if st.reportModeOn then .reportNoteSaved
  else if st.role = some ChatRole.ownersSilent then .ownersSilentNudge
  else .noAction

/-! ### Claim C10: auto-detection of notes reports -/

/-- Inversion: the PATCH A save only happens when the detector accepted. -/
theorem on_text_autoNote_inv (st : OnTextState) (text : String)
    (h : on_text_action st text = .autoNoteSaved) :
    looks_like_notes_report (pyStrip text.data) = true := by
  unfold on_text_action at h
  dsimp only at h
  repeat' split at h
  all_goals try exact OnTextAction.noConfusion h
  rename_i hcond
  exact hcond.2

/-- Inversion: the report-mode save only happens with report mode on. -/
theorem on_text_reportNote_inv (st : OnTextState) (text : String)
    (h : on_text_action st text = .reportNoteSaved) :
    st.reportModeOn = true := by
  unfold on_text_action at h
  dsimp only at h
  repeat' split at h
  all_goals try exact OnTextAction.noConfusion h
  rename_i hcond
  exact hcond

/-- C10: in an OPS_ADMIN or MANAGER_INPUT chat with no capture mode active,
a nonempty free-text message is saved as a notes entry exactly when
`looks_like_notes_report` accepts it, and the detector accepts exactly when
at least 3 of the 4 heading groups occur as substrings of the lowercased
text (the sold-out group matched by the colon-less prefix "agotad"). -/
theorem c10_auto_notes (st : OnTextState) (text : String)
    (hrole : st.role = some ChatRole.opsAdmin ∨ st.role = some ChatRole.managerInput)
    (hrep : st.reportModeOn = false)
    (hne : ¬ pyStrip text.data = []) :
    ((on_text_action st text = .autoNoteSaved ∨
      on_text_action st text = .reportNoteSaved) ↔
      looks_like_notes_report (pyStrip text.data) = true) ∧
    (looks_like_notes_report (pyStrip text.data) = true ↔
      3 ≤ notesHits (pyLower (pyStrip text.data))) := by
  constructor
  · constructor
    · intro hact
      rcases hact with hact | hact
      · exact on_text_autoNote_inv st text hact
      · rw [on_text_reportNote_inv st text hact] at hrep
        exact Bool.noConfusion hrep
    · intro hLL
      left
      unfold on_text_action
      dsimp only
      rw [if_neg hne,
          if_pos (show (st.role = some ChatRole.opsAdmin ∨
              st.role = some ChatRole.managerInput) ∧
              looks_like_notes_report (pyStrip text.data) = true from ⟨hrole, hLL⟩)]
  · unfold looks_like_notes_report
    simp only [decide_eq_true_eq]

/-- Witness for C10 at a concrete three-section notes message in an
OPS_ADMIN chat with no capture mode active. -/
theorem c10_auto_notes_witness :
    ((on_text_action ⟨some ChatRole.opsAdmin, false, false, false, false⟩
        "Incidents: broken lamp\nStaff: ok\nSold out: fish" = .autoNoteSaved ∨
      on_text_action ⟨some ChatRole.opsAdmin, false, false, false, false⟩
        "Incidents: broken lamp\nStaff: ok\nSold out: fish" = .reportNoteSaved) ↔
      looks_like_notes_report
        (pyStrip ("Incidents: broken lamp\nStaff: ok\nSold out: fish").data) = true) ∧
    (looks_like_notes_report
        (pyStrip ("Incidents: broken lamp\nStaff: ok\nSold out: fish").data) = true ↔
      3 ≤ notesHits (pyLower
        (pyStrip ("Incidents: broken lamp\nStaff: ok\nSold out: fish").data))) :=
  c10_auto_notes ⟨some ChatRole.opsAdmin, false, false, false, false⟩
    "Incidents: broken lamp\nStaff: ok\nSold out: fish"
    (Or.inl rfl) rfl (by decide)
